import Mathlib

/-!
Verification development for the Vital-Sense-AI feedback pipeline.

Python text values are embedded as `List Char`; Python's `None`, `bool`,
`int`, `str`, `list`, `dict` values as the inductive `PyVal`.  Stateful code
(the conversation buffer) is embedded as explicit state passing over
`ConvState`.  Fallible code paths (the uncaught `OverflowError` that
`int(float("inf"))` raises inside `FeedbackAnalyzer.validate_score`) are
embedded with `Except`.

Idealizations, noted where they matter:
* Python `str.lower`/whitespace handling is modelled over the ASCII range
  (`Char.toLower`, `Char.isWhitespace`); no claim depends on non-ASCII text.
* `float(s)` for a finite decimal literal is modelled with exact integer
  truncation instead of 53-bit rounding and overflow-to-infinity of IEEE
  doubles, and digit-group underscores are not modelled; no claim depends
  on those inputs.  The `inf`/`infinity`/`nan` spellings, which do decide
  claims, are modelled exactly.
-/

namespace VitalSense

/-! ### Python string primitives over `List Char` -/

def isWs (c : Char) : Bool := c.isWhitespace

/-- Python `str.lstrip()` (no argument): drop leading whitespace. -/
def stripLeft (s : List Char) : List Char := s.dropWhile isWs

/-- Python `str.rstrip()` (no argument): drop trailing whitespace. -/
def stripRight (s : List Char) : List Char := (s.reverse.dropWhile isWs).reverse

/-- Python `str.strip()` (no argument). -/
def pyStrip (s : List Char) : List Char := stripRight (stripLeft s)

/-- Python `str.lower()` (ASCII range). -/
def lowerChars (s : List Char) : List Char := s.map Char.toLower

/-- Accumulator worker for Python `str.split()` with no argument:
maximal non-whitespace runs, empties dropped. -/
def wordsAux : List Char → List Char → List (List Char)
  | [], acc => if acc = [] then [] else [acc.reverse]
  | c :: cs, acc =>
    if isWs c then
      if acc = [] then wordsAux cs [] else acc.reverse :: wordsAux cs []
    else wordsAux cs (c :: acc)

/-- Python `s.split()` with no argument. -/
def pyWords (s : List Char) : List (List Char) := wordsAux s []

/-- Python `" ".join(ws)`. -/
def joinWords : List (List Char) → List Char
  | [] => []
  | [w] => w
  | w :: ws => w ++ ' ' :: joinWords ws

/-- Python `s.split(",")`: split at every comma, empty fragments kept. -/
def splitOnComma : List Char → List (List Char)
  | [] => [[]]
  | c :: cs =>
    if c = ',' then [] :: splitOnComma cs
    else match splitOnComma cs with
      | [] => [[c]]
      | w :: ws => (c :: w) :: ws

/-- Python substring test `needle in hay`. -/
def hasSub (n : List Char) : List Char → Bool
  | [] => n.isEmpty
  | c :: t => n.isPrefixOf (c :: t) || hasSub n t

/-- The uniform text-cleaning rule of the analyzer:
`str(text).strip()` followed by `" ".join(split())`. -/
def cleanChars (s : List Char) : List Char := joinWords (pyWords (pyStrip s))

/-! ### Python values

The JSON-ish value universe the analyzer receives: `None`, booleans,
integers, strings, lists and string-keyed dicts. -/

inductive PyVal where
  | none
  | bool (b : Bool)
  | int (n : Int)
  | str (s : List Char)
  | list (xs : List PyVal)
  | dict (entries : List (String × PyVal))

/-- Python `dict.get(key, default)`; entries looked up left to right
(keys of a Python dict are unique, so first match is the match). -/
def dictGetD (es : List (String × PyVal)) (key : String) (dflt : PyVal) : PyVal :=
  match es.find? (fun e => e.1 == key) with
  | some e => e.2
  | Option.none => dflt

def aposChar : Char := Char.ofNat 39

mutual

/-- Python `repr(v)` (element rendering inside containers).  Strings are
quoted with a single quote; escaping of quotes inside the string is not
modelled (no claim depends on it). -/
def pyReprOf : PyVal → List Char
  | .none => ("None").toList
  | .bool b => if b then ("True").toList else ("False").toList
  | .int n => (toString n).toList
  | .str s => aposChar :: s ++ [aposChar]
  | .list xs => '[' :: pyReprList xs ++ [']']
  | .dict es => Char.ofNat 123 :: pyReprEntries es ++ [Char.ofNat 125]

def pyReprList : List PyVal → List Char
  | [] => []
  | [x] => pyReprOf x
  | x :: xs => pyReprOf x ++ ',' :: ' ' :: pyReprList xs

def pyReprEntries : List (String × PyVal) → List Char
  | [] => []
  | [e] => aposChar :: e.1.toList ++ aposChar :: ':' :: ' ' :: pyReprOf e.2
  | e :: es => (aposChar :: e.1.toList ++ aposChar :: ':' :: ' ' :: pyReprOf e.2)
      ++ ',' :: ' ' :: pyReprEntries es

end

/-- Python `str(v)`: identity on strings, `repr` rendering otherwise. -/
def pyStrOf : PyVal → List Char
  | .str s => s
  | v => pyReprOf v

deriving instance DecidableEq for Except

/-! ### Model of `int(float(score))`

`float(x)` either yields a finite value, an infinity, a NaN, or raises
`ValueError`/`TypeError`.  `int()` of the result truncates a finite value
toward zero, raises `ValueError` on NaN (caught by `validate_score`), and
raises `OverflowError` on an infinity — which `validate_score` does NOT
catch (its `except` clause lists only `ValueError` and `TypeError`). -/

inductive FloatConv where
  | finite (i : Int)
  | infinite
  | nan
  | fail
deriving DecidableEq, Repr

def digitsToNat (ds : List Char) : Nat :=
  ds.foldl (fun a c => a * 10 + (c.toNat - 48)) 0

/-- Truncated-toward-zero integer value of `sgn * 0.ipfp * 10^e`
(`ip` integer-part digits, `fp` fraction digits, `e` decimal exponent). -/
def decimalTruncate (sgn : Int) (ip fp : List Char) (e : Int) : Int :=
  let m : Nat := digitsToNat (ip ++ fp)
  let net : Int := e - fp.length
  let mag : Nat := if 0 ≤ net then m * 10 ^ net.toNat else m / 10 ^ (-net).toNat
  sgn * mag

/-- Parse the part of a float literal after the optional sign. -/
def parseDecimalTail (sgn : Int) (u : List Char) : FloatConv :=
  let p1 := u.span Char.isDigit
  let ip := p1.1
  let p2 := match p1.2 with
    | '.' :: r => r.span Char.isDigit
    | r => (([] : List Char), r)
  let fp := p2.1
  if ip = [] ∧ fp = [] then .fail
  else match p2.2 with
    | [] => .finite (decimalTruncate sgn ip fp 0)
    | c :: r3 =>
      if c = 'e' ∨ c = 'E' then
        let p3 : Int × List Char := match r3 with
          | '+' :: q => (1, q)
          | '-' :: q => (-1, q)
          | q => (1, q)
        let p4 := p3.2.span Char.isDigit
        if p4.1 = [] ∨ p4.2 ≠ [] then .fail
        else .finite (decimalTruncate sgn ip fp (p3.1 * digitsToNat p4.1))
      else .fail

/-- Python `float(s)` for a string argument. -/
def pyFloatOfChars (s : List Char) : FloatConv :=
  let t := pyStrip s
  let p : Int × List Char := match t with
    | '+' :: r => (1, r)
    | '-' :: r => (-1, r)
    | r => (1, r)
  let lu := lowerChars p.2
  if lu = ("inf").toList ∨ lu = ("infinity").toList then .infinite
  else if lu = ("nan").toList then .nan
  else parseDecimalTail p.1 p.2

/-- Python `float(v)` over the value universe: `bool` is an int subtype
(`True` → 1.0), `None`/`list`/`dict` raise `TypeError`. -/
def pyFloatOfVal : PyVal → FloatConv
  | .int n => .finite n
  | .bool b => .finite (if b then 1 else 0)
  | .str s => pyFloatOfChars s
  | _ => .fail

/-! ### FeedbackAnalyzer -/

/-- The one uncaught error kind reachable in the analyzer:
`OverflowError` from `int()` of an infinite float. -/
inductive PyErr where
  | overflowError
deriving DecidableEq, Repr

/-- `FeedbackAnalyzer.validate_score`: `int(float(score))` clamped to
`[minVal, maxVal]`; on `ValueError`/`TypeError` the midpoint
`(minVal + maxVal) // 2`; an infinite float raises `OverflowError`. -/
def validate_score (minVal maxVal : Int) (score : PyVal) : Except PyErr Int :=
  match pyFloatOfVal score with
  | .finite i => .ok (max minVal (min maxVal i))
  | .infinite => .error .overflowError
  | .nan => .ok ((minVal + maxVal).fdiv 2)
  | .fail => .ok ((minVal + maxVal).fdiv 2)

/-- `FeedbackAnalyzer.clean_text`. -/
def clean_text (text : PyVal) : List Char :=
  match text with
  | .none => []
  | t => cleanChars (pyStrOf t)

def confidenceYesValues : List (List Char) :=
  [("yes").toList, ("y").toList, ("true").toList, ("1").toList]

def confidenceNoValues : List (List Char) :=
  [("no").toList, ("n").toList, ("false").toList, ("0").toList]

/-- `FeedbackAnalyzer.validate_confidence`. -/
def validate_confidence (value : PyVal) : List Char :=
  match value with
  | .none => ("partial").toList
  | v =>
    let valStr := pyStrip (lowerChars (pyStrOf v))
    if valStr ∈ confidenceYesValues then ("yes").toList
    else if valStr ∈ confidenceNoValues then ("no").toList
    else ("partial").toList

structure Radar where
  felt_heard : Int
  concerns_addressed : Int
  clear_communication : Int
  respect_shown : Int
  time_given : Int
deriving DecidableEq, Repr

def defaultRadar : Radar := ⟨3, 3, 3, 3, 3⟩

/-- `FeedbackAnalyzer.validate_radar_metrics`: non-dict input yields all
defaults; a dict is read axis by axis (in the source's key order), each
through `validate_score` with default 3; extra keys are never read. -/
def validate_radar_metrics (metrics : PyVal) : Except PyErr Radar :=
  match metrics with
  | .dict es =>
    match validate_score 1 5 (dictGetD es "felt_heard" (.int 3)) with
    | .error e => .error e
    | .ok fh =>
      match validate_score 1 5 (dictGetD es "concerns_addressed" (.int 3)) with
      | .error e => .error e
      | .ok ca =>
        match validate_score 1 5 (dictGetD es "clear_communication" (.int 3)) with
        | .error e => .error e
        | .ok cc =>
          match validate_score 1 5 (dictGetD es "respect_shown" (.int 3)) with
          | .error e => .error e
          | .ok rs =>
            match validate_score 1 5 (dictGetD es "time_given" (.int 3)) with
            | .error e => .error e
            | .ok tg => .ok ⟨fh, ca, cc, rs, tg⟩
  | _ => .ok defaultRadar

def bulletsPlaceholder : List Char := ("No specific feedback provided.").toList

/-- The list branch of `validate_bullets`: first five elements, each
cleaned, empties dropped; placeholder if nothing survives. -/
def cleanBulletList (xs : List PyVal) : List (List Char) :=
  let cleaned := ((xs.take 5).map clean_text).filter (fun t => t ≠ [])
  if cleaned = [] then [bulletsPlaceholder] else cleaned

/-- `FeedbackAnalyzer.validate_bullets`.  A string is first rewritten to
`[b.strip() for b in bullets.split(",") if b.strip()]` and then flows
through the list branch, exactly as in the source. -/
def validate_bullets (bullets : PyVal) : List (List Char) :=
  match bullets with
  | .none => [bulletsPlaceholder]
  | .str s =>
    cleanBulletList ((((splitOnComma s).map pyStrip).filter (fun b => b ≠ [])).map .str)
  | .list xs => cleanBulletList xs
  | _ => [bulletsPlaceholder]

structure Record where
  satisfaction_score : Int
  radar_metrics : Radar
  confidence_in_treatment : List Char
  duration_satisfaction : Int
  staff_behavior : Int
  summary_bullets : List (List Char)
deriving DecidableEq, Repr

/-- `FeedbackAnalyzer.process_llm_output`: a non-dict response is treated
as the empty dict; fields are validated in source order, so the first
uncaught `OverflowError` (if any) propagates. -/
def process_llm_output (llm_response : PyVal) : Except PyErr Record :=
  let es := match llm_response with
    | .dict es => es
    | _ => []
  match validate_score 1 5 (dictGetD es "satisfaction_score" (.int 3)) with
  | .error e => .error e
  | .ok ss =>
    match validate_radar_metrics (dictGetD es "radar_metrics" (.dict [])) with
    | .error e => .error e
    | .ok rm =>
      let ct := validate_confidence (dictGetD es "confidence_in_treatment" (.str ("partial").toList))
      match validate_score 1 5 (dictGetD es "duration_satisfaction" (.int 3)) with
      | .error e => .error e
      | .ok ds =>
        match validate_score 1 5 (dictGetD es "staff_behavior" (.int 3)) with
        | .error e => .error e
        | .ok sb =>
          let bl := validate_bullets (dictGetD es "summary_bullets" (.list []))
          .ok ⟨ss, rm, ct, ds, sb, bl⟩

/-- The radar dict as `process_llm_output` would emit it (source key order). -/
def radarToVal (r : Radar) : PyVal :=
  .dict [("felt_heard", .int r.felt_heard),
         ("concerns_addressed", .int r.concerns_addressed),
         ("clear_communication", .int r.clear_communication),
         ("respect_shown", .int r.respect_shown),
         ("time_given", .int r.time_given)]

/-- The feedback dict `process_llm_output` builds, as a plain value
(what a second normalization pass would receive). -/
def recordToDict (r : Record) : PyVal :=
  .dict [("satisfaction_score", .int r.satisfaction_score),
         ("radar_metrics", radarToVal r.radar_metrics),
         ("confidence_in_treatment", .str r.confidence_in_treatment),
         ("duration_satisfaction", .int r.duration_satisfaction),
         ("staff_behavior", .int r.staff_behavior),
         ("summary_bullets", .list (r.summary_bullets.map .str))]

/-! ### ConversationManager

Wall-clock timestamps are embedded as a `Nat` supplied with each
operation (the value `datetime.now()` would produce at that moment). -/

inductive Role where
  | user
  | assistant
  | system
deriving DecidableEq, Repr

structure Msg where
  role : Role
  content : List Char
  timestamp : Nat
deriving DecidableEq, Repr

structure ConvState where
  messages : List Msg
  createdAt : Nat
  lastActivity : Nat
  isActive : Bool
deriving DecidableEq, Repr

def MAX_HISTORY_LENGTH : Nat := 50

/-- `ConversationManager.__init__`. -/
def initConv (t : Nat) : ConvState :=
  { messages := [], createdAt := t, lastActivity := t, isActive := true }

/-- `ConversationManager._enforce_max_length`. -/
def enforceMaxLength (msgs : List Msg) : List Msg :=
  if msgs.length > MAX_HISTORY_LENGTH then
    msgs.drop (msgs.length - MAX_HISTORY_LENGTH)
  else msgs

/-- `ConversationManager.add_user_message`. -/
def add_user_message (t : Nat) (content : List Char) (s : ConvState) : ConvState :=
  if pyStrip content = [] then s
  else { s with
    messages := enforceMaxLength (s.messages ++ [⟨.user, pyStrip content, t⟩]),
    lastActivity := t }

/-- `ConversationManager.add_assistant_message`. -/
def add_assistant_message (t : Nat) (content : List Char) (s : ConvState) : ConvState :=
  if pyStrip content = [] then s
  else { s with
    messages := enforceMaxLength (s.messages ++ [⟨.assistant, pyStrip content, t⟩]),
    lastActivity := t }

/-- `ConversationManager.add_system_message`: appends unconditionally
(no emptiness check, no max-length enforcement, no last-activity update). -/
def add_system_message (t : Nat) (content : List Char) (s : ConvState) : ConvState :=
  { s with messages := s.messages ++ [⟨.system, pyStrip content, t⟩] }

def isChatRole : Role → Bool
  | .system => false
  | _ => true

/-- `ConversationManager.get_history`: user/assistant messages only,
timestamps dropped. -/
def get_history (s : ConvState) : List (Role × List Char) :=
  (s.messages.filter (fun m => isChatRole m.role)).map (fun m => (m.role, m.content))

def roleLabel : Role → List Char
  | .user => ("Patient").toList
  | _ => ("Assistant").toList

/-- `ConversationManager.get_conversation_transcript`. -/
def get_conversation_transcript (s : ConvState) : List Char :=
  if s.messages = [] then []
  else
    joinLines ((s.messages.filter (fun m => isChatRole m.role)).map
      (fun m => roleLabel m.role ++ ':' :: ' ' :: m.content))
where
  joinLines : List (List Char) → List Char
    | [] => []
    | [l] => l
    | l :: ls => l ++ '\n' :: joinLines ls

/-- One append call on the buffer, tagged with its wall-clock time. -/
inductive ConvOp where
  | user (t : Nat) (content : List Char)
  | assistant (t : Nat) (content : List Char)
  | system (t : Nat) (content : List Char)

def applyOp (s : ConvState) : ConvOp → ConvState
  | .user t c => add_user_message t c s
  | .assistant t c => add_assistant_message t c s
  | .system t c => add_system_message t c s

def applyOps (s : ConvState) (ops : List ConvOp) : ConvState := ops.foldl applyOp s

/-- The message (if any) an append call stores in the buffer. -/
def opMessage : ConvOp → Option Msg
  | .user t c => if pyStrip c = [] then Option.none else some ⟨.user, pyStrip c, t⟩
  | .assistant t c => if pyStrip c = [] then Option.none else some ⟨.assistant, pyStrip c, t⟩
  | .system t c => some ⟨.system, pyStrip c, t⟩

/-- All messages a sequence of append calls stores, in call order. -/
def appendedMessages (ops : List ConvOp) : List Msg := ops.filterMap opMessage

/-- The user/assistant projection of `appendedMessages`, in the shape
`get_history` reports. -/
def appendedChatHistory (ops : List ConvOp) : List (Role × List Char) :=
  ((appendedMessages ops).filter (fun m => isChatRole m.role)).map
    (fun m => (m.role, m.content))

/-! ### MockProvider.chat_completion

`random.choice(candidates)` is embedded by passing the random draw as a
`pick : Nat` oracle and selecting `candidates[pick % len(candidates)]`;
every theorem below quantifies over `pick`.  The `time.sleep(0.3)` call
has no state effect and is not modelled. -/

/-- Builds a source string that contains single-quote characters:
the parts are joined with an apostrophe. -/
def mkStr (ps : List String) : List Char :=
  (String.intercalate aposChar.toString ps).toList

def mockGreetings : List (List Char) :=
  [mkStr ["Hello! I", "m here to hear about your healthcare visit today. How was your overall experience?"],
   ("Hi there! Thank you for taking the time to share your feedback. What brings you here today?").toList,
   mkStr ["Welcome! I", "d love to hear about your recent healthcare experience. What stood out to you?"]]

def mockNegatives : List (List Char) :=
  [mkStr ["I", "m truly sorry to hear that. That sounds very difficult. Can you tell me more about what happened?"],
   mkStr ["That", "s really concerning to hear. Your experience matters. What specifically went wrong?"],
   ("I appreciate you sharing that, even though it was negative. What would have made it better?").toList]

def mockWaitResponses : List (List Char) :=
  [("Wait times can be so frustrating. How long did you have to wait approximately?").toList,
   ("I understand waiting is difficult. Did anyone communicate about the delay?").toList,
   mkStr ["That", "s a common concern we hear. Was there anything available to make the wait more comfortable?"]]

def mockRudeResponses : List (List Char) :=
  [mkStr ["I", "m sorry you felt that way. No one should feel dismissed. Who was involved in that interaction?"],
   mkStr ["That", "s not the experience we want anyone to have. Can you describe what happened?"],
   ("Your feelings are valid. Would you like to share more details about that interaction?").toList]

def mockPositives : List (List Char) :=
  [mkStr ["That", "s wonderful to hear! What made it such a positive experience?"],
   mkStr ["I", "m so glad! Was there a particular person or aspect that stood out?"],
   mkStr ["That", "s great feedback! Would you recommend us to others? Why?"]]

def mockFriendlyResponses : List (List Char) :=
  [mkStr ["It", "s great that the staff made a positive impression! Anyone specific you", "d like to mention?"],
   mkStr ["We love hearing this! Friendly interactions make such a difference, don", "t they?"],
   mkStr ["That", "s exactly what we aim for. Was the rest of your visit equally positive?"]]

def mockDoctorResponses : List (List Char) :=
  [("How was your interaction with the doctor? Did they address all your concerns?").toList,
   ("The doctor-patient relationship is so important. Did you feel heard?").toList,
   ("Was the doctor able to explain things in a way you understood?").toList]

def mockNurseResponses : List (List Char) :=
  [("Nurses play such a vital role. How was your experience with them?").toList,
   ("Our nursing staff works hard. Did they make you feel comfortable?").toList,
   ("Were the nurses attentive to your needs?").toList]

def mockAppointmentResponses : List (List Char) :=
  [("How was the appointment scheduling process?").toList,
   ("Was it easy to get an appointment at a time that worked for you?").toList,
   ("Did the appointment start on time?").toList]

def mockFacilityResponses : List (List Char) :=
  [("The environment matters. Was the facility up to your expectations?").toList,
   ("Cleanliness is important to us. How did you find the facilities?").toList,
   ("What did you think about the overall atmosphere of our facility?").toList]

def mockOffTopicRedirect : List Char :=
  mkStr ["I appreciate the conversation! Though I", "d love to hear more about your healthcare experience specifically. Anything else you", "d like to share about your visit?"]

def mockDefaultsTwo : List (List Char) :=
  [mkStr ["Thank you for sharing that. Is there anything specific about the staff you", "d like to mention?"],
   ("I appreciate that feedback. What about the facilities - how did you find them?").toList,
   ("Got it. How was the communication throughout your visit?").toList]

def mockDefaultsThree : List (List Char) :=
  [mkStr ["That", "s helpful to know. Were there any surprises during your visit, good or bad?"],
   ("I see. If you could change one thing about your experience, what would it be?").toList,
   ("Thank you. Is there anything else that stands out in your memory?").toList]

def mockDefaultsFour : List (List Char) :=
  [mkStr ["You", "ve shared some valuable insights. Any final thoughts before we wrap up?"],
   mkStr ["This is really helpful feedback. Anything else you", "d like to add?"],
   mkStr ["I appreciate all you", "ve shared. Is there anything we haven", "t covered?"]]

def mockDefaultsLate : List (List Char) :=
  [("Thank you for continuing to share. What else would you like to mention?").toList,
   mkStr ["I", "m still listening. Feel free to share any other thoughts."],
   ("Is there anything else about your experience you").toList ++ aposChar ::
     ("d like to discuss?").toList,
   mkStr ["Your feedback is valuable. Please continue if there", "s more."],
   ("I appreciate your openness. What else comes to mind?").toList]

/-- Keyword test `any(w in last_message for w in ws)`. -/
def wordAny (ws : List String) (l : List Char) : Bool :=
  ws.any (fun w => hasSub w.toList l)

def countUserMessages (messages : List (Role × List Char)) : Nat :=
  (messages.filter (fun m => decide (m.1 = Role.user))).length

/-- The candidate list `MockProvider.chat_completion` draws its reply
from, following the source's branch order exactly. -/
def mockChatCandidates (messages : List (Role × List Char)) : List (List Char) :=
  let lastMessage := match messages.getLast? with
    | some m => lowerChars m.2
    | Option.none => []
  let numExchanges := countUserMessages messages
  if numExchanges ≤ 1 then mockGreetings
  else if wordAny ["bad", "terrible", "awful", "horrible", "worst"] lastMessage then
    mockNegatives
  else if wordAny ["long", "slow", "wait", "waiting", "delayed"] lastMessage then
    mockWaitResponses
  else if wordAny ["rude", "mean", "dismissive", "ignored"] lastMessage then
    mockRudeResponses
  else if wordAny ["good", "great", "excellent", "amazing", "wonderful"] lastMessage then
    mockPositives
  else if wordAny ["nice", "friendly", "helpful", "kind", "caring"] lastMessage then
    mockFriendlyResponses
  else if wordAny ["doctor", "physician", "dr"] lastMessage then
    mockDoctorResponses
  else if wordAny ["nurse", "nurses", "nursing"] lastMessage then
    mockNurseResponses
  else if wordAny ["appointment", "schedule", "booking"] lastMessage then
    mockAppointmentResponses
  else if wordAny ["clean", "dirty", "facility", "room", "building"] lastMessage then
    mockFacilityResponses
  else if wordAny ["marketing", "sales", "weather", "sports", "politics"] lastMessage then
    [mockOffTopicRedirect]
  else if numExchanges = 2 then mockDefaultsTwo
  else if numExchanges = 3 then mockDefaultsThree
  else if numExchanges = 4 then mockDefaultsFour
  else mockDefaultsLate

/-- `MockProvider.chat_completion` with the random draw as an oracle. -/
def mockChatCompletion (messages : List (Role × List Char)) (pick : Nat) : List Char :=
  let cs := mockChatCandidates messages
  cs.getD (pick % cs.length) []

/-! ### LLMClient.analyze_feedback and the app orchestration

The provider transport and `json.loads` are external calls, embedded as
oracle inputs: `.error e` is a provider exception carrying message `e`;
`.ok Option.none` is provider text that fails JSON parsing (after the
source's code-fence stripping, which only rewrites the text handed to the
parser); `.ok (some v)` is text that parses to value `v`. -/

def analyze_feedback (result : Except (List Char) (Option PyVal)) : PyVal :=
  match result with
  | .ok (some v) => v
  | .ok Option.none =>
    .dict [("satisfaction_score", .int 3),
           ("summary", .str ("Analysis failed to parse.").toList),
           ("key_issues", .list [.str ("Analysis Error").toList])]
  | .error _ => .dict []

def fallbackNote : List Char :=
  (" [Note: System fallback engaged due to connection error]").toList

/-- The `try/except` around `llm_client.chat` in `send_message`
(src/app.py lines 125-143): primary gateway outcome, then one mock
retry with an annotation, then a literal error reply. -/
def chatWithFallback (primary mockRetry : Except (List Char) (List Char)) : List Char :=
  match primary with
  | .ok reply => reply
  | .error llmError =>
    match mockRetry with
    | .ok mockReply => mockReply ++ fallbackNote
    | .error _ =>
      ("System Error: ").toList ++ llmError ++ (". Please check server logs.").toList

def closingMsg : List Char :=
  ("Thank you for your feedback. We are now analyzing your response.").toList

inductive SendResult where
  | badInput (err : List Char)
  | ended (message : List Char) (transcript : List Char)
  | reply (message : List Char)
deriving DecidableEq, Repr

/-- `end_conversational_session_internal` for a session present in the
registry: appends the closing assistant message and returns it together
with the transcript (the JSON payload carries `is_active: False`). -/
def end_session_internal (t : Nat) (s : ConvState) : ConvState × SendResult :=
  let s' := add_assistant_message t closingMsg s
  (s', .ended closingMsg (get_conversation_transcript s'))

def endCommands : List (List Char) :=
  [("end").toList, ("stop").toList, ("finish").toList, ("done").toList]

/-- `send_message` for a session present in the registry.  The remote
chat call and the mock retry are oracle outcomes (`primary`,
`mockRetry`); the registry lookup itself is outside this per-session
model. -/
def send_message (t : Nat) (rawMsg : List Char)
    (primary mockRetry : Except (List Char) (List Char))
    (s : ConvState) : ConvState × SendResult :=
  let userMessage := pyStrip rawMsg
  if userMessage = [] then
    (s, .badInput ("Message cannot be empty").toList)
  else if lowerChars userMessage ∈ endCommands then
    end_session_internal t s
  else
    let s1 := add_user_message t userMessage s
    let reply := chatWithFallback primary mockRetry
    (add_assistant_message t reply s1, .reply reply)

/-! ### Spec-side readings of `validate_bullets` (C5)

`claimedValidateBullets` follows the claim's wording for the list rule —
trim and collapse each element, drop empties, THEN truncate to at most
five.  `amendedValidateBullets` is the corrected reading — the first five
raw elements are considered, then cleaned and filtered — written with a
different combinator structure than the source so the comparison is not
vacuous.  Branches the claim does not speak about (numbers, dicts) follow
the code. -/

def claimedBulletListRule (xs : List PyVal) : List (List Char) :=
  let cleaned := ((xs.map clean_text).filter (fun t => t ≠ [])).take 5
  if cleaned = [] then [bulletsPlaceholder] else cleaned

def claimedValidateBullets (bullets : PyVal) : List (List Char) :=
  match bullets with
  | .none => [bulletsPlaceholder]
  | .str s => claimedBulletListRule ((splitOnComma s).map .str)
  | .list xs => claimedBulletListRule xs
  | _ => [bulletsPlaceholder]

def amendedBulletListRule (xs : List PyVal) : List (List Char) :=
  let cleaned := (xs.take 5).filterMap
    (fun x => if clean_text x = [] then Option.none else some (clean_text x))
  if cleaned = [] then [bulletsPlaceholder] else cleaned

def amendedValidateBullets (bullets : PyVal) : List (List Char) :=
  match bullets with
  | .none => [bulletsPlaceholder]
  | .str s =>
    amendedBulletListRule ((splitOnComma s).filterMap
      (fun b => if pyStrip b = [] then Option.none else some (PyVal.str (pyStrip b))))
  | .list xs => amendedBulletListRule xs
  | _ => [bulletsPlaceholder]

/-! ## Theorems -/

/-! ### Lemmas about the split/join pipeline -/

theorem wordsAux_all_ws (t : List Char) (ht : ∀ c ∈ t, isWs c = true) (acc : List Char) :
    wordsAux t acc = if acc = [] then [] else [acc.reverse] := by
  induction t generalizing acc with
  | nil => rfl
  | cons c cs ih =>
    have hc : isWs c = true := ht c (List.mem_cons_self _ _)
    have hcs : ∀ x ∈ cs, isWs x = true := fun x hx => ht x (List.mem_cons_of_mem _ hx)
    by_cases hacc : acc = []
    · simp [wordsAux, hc, hacc, ih hcs []]
    · simp [wordsAux, hc, hacc, ih hcs []]

theorem wordsAux_append_ws (s t : List Char) (ht : ∀ c ∈ t, isWs c = true)
    (acc : List Char) : wordsAux (s ++ t) acc = wordsAux s acc := by
  induction s generalizing acc with
  | nil =>
    simp only [List.nil_append]
    rw [wordsAux_all_ws t ht acc]
    rfl
  | cons c cs ih =>
    by_cases hc : isWs c
    · by_cases hacc : acc = [] <;> simp [wordsAux, hc, hacc, ih]
    · simp [wordsAux, hc, ih]

theorem wordsAux_stripLeft (s : List Char) : wordsAux (stripLeft s) [] = wordsAux s [] := by
  induction s with
  | nil => rfl
  | cons c cs ih =>
    by_cases hc : isWs c
    · simpa [stripLeft, List.dropWhile_cons, hc, wordsAux] using ih
    · simp [stripLeft, List.dropWhile_cons, hc]

theorem pyWords_pyStrip (s : List Char) : pyWords (pyStrip s) = pyWords s := by
  unfold pyWords pyStrip
  have hdecomp : stripLeft s =
      stripRight (stripLeft s) ++ ((stripLeft s).reverse.takeWhile isWs).reverse := by
    unfold stripRight
    rw [← List.reverse_append, List.takeWhile_append_dropWhile, List.reverse_reverse]
  have hws : ∀ c ∈ ((stripLeft s).reverse.takeWhile isWs).reverse, isWs c = true := by
    intro c hc
    rw [List.mem_reverse] at hc
    exact List.mem_takeWhile_imp hc
  calc wordsAux (stripRight (stripLeft s)) []
      = wordsAux (stripRight (stripLeft s) ++ ((stripLeft s).reverse.takeWhile isWs).reverse) [] :=
        (wordsAux_append_ws _ _ hws []).symm
    _ = wordsAux (stripLeft s) [] := by rw [← hdecomp]
    _ = wordsAux s [] := wordsAux_stripLeft s

theorem wordsAux_nonws (w : List Char) (hw : ∀ c ∈ w, isWs c = false)
    (cs acc : List Char) : wordsAux (w ++ cs) acc = wordsAux cs (w.reverse ++ acc) := by
  induction w generalizing acc with
  | nil => simp
  | cons c ws ih =>
    have hc : isWs c = false := hw c (List.mem_cons_self _ _)
    have hws : ∀ x ∈ ws, isWs x = false := fun x hx => hw x (List.mem_cons_of_mem _ hx)
    show wordsAux (c :: (ws ++ cs)) acc = wordsAux cs ((c :: ws).reverse ++ acc)
    rw [show wordsAux (c :: (ws ++ cs)) acc = wordsAux (ws ++ cs) (c :: acc) by
      simp [wordsAux, hc]]
    rw [ih hws (c :: acc), List.reverse_cons, List.append_assoc, List.singleton_append]

/-- Every word produced by `wordsAux` is nonempty and whitespace-free. -/
theorem wordsAux_spec (s : List Char) :
    ∀ acc, (∀ c ∈ acc, isWs c = false) →
      ∀ w ∈ wordsAux s acc, w ≠ [] ∧ ∀ c ∈ w, isWs c = false := by
  induction s with
  | nil =>
    intro acc hacc w hw
    by_cases h : acc = []
    · simp [wordsAux, h] at hw
    · simp only [wordsAux, h, if_false, List.mem_singleton] at hw
      subst hw
      refine ⟨by simpa using h, ?_⟩
      intro c hc
      exact hacc c (List.mem_reverse.mp hc)
  | cons c cs ih =>
    intro acc hacc w hw
    by_cases hc : isWs c
    · by_cases h : acc = []
      · simp only [wordsAux, hc, if_true, h] at hw
        exact ih [] (by simp) w hw
      · simp only [wordsAux, hc, if_true, h, if_false, List.mem_cons] at hw
        rcases hw with hw | hw
        · subst hw
          refine ⟨by simpa using h, ?_⟩
          intro x hx
          exact hacc x (List.mem_reverse.mp hx)
        · exact ih [] (by simp) w hw
    · simp only [wordsAux, hc, Bool.false_eq_true, if_false] at hw
      refine ih (c :: acc) ?_ w hw
      intro x hx
      rcases List.mem_cons.mp hx with hx | hx
      · subst hx; simpa using hc
      · exact hacc x hx

theorem pyWords_spec (s : List Char) :
    ∀ w ∈ pyWords s, w ≠ [] ∧ ∀ c ∈ w, isWs c = false :=
  wordsAux_spec s [] (by simp)

theorem pyWords_joinWords (ws : List (List Char))
    (h : ∀ w ∈ ws, w ≠ [] ∧ ∀ c ∈ w, isWs c = false) :
    pyWords (joinWords ws) = ws := by
  induction ws with
  | nil => rfl
  | cons w rest ih =>
    have hw := h w (List.mem_cons_self _ _)
    have hrest : ∀ x ∈ rest, x ≠ [] ∧ ∀ c ∈ x, isWs c = false :=
      fun x hx => h x (List.mem_cons_of_mem _ hx)
    cases rest with
    | nil =>
      show pyWords w = [w]
      unfold pyWords
      have := wordsAux_nonws w hw.2 [] []
      simp only [List.append_nil] at this
      rw [this]
      simp [wordsAux, hw.1]
    | cons r rs =>
      show pyWords (w ++ ' ' :: joinWords (r :: rs)) = w :: r :: rs
      unfold pyWords
      rw [wordsAux_nonws w hw.2 (' ' :: joinWords (r :: rs)) []]
      have hne : w.reverse ++ [] ≠ [] := by
        simp only [List.append_nil, ne_eq, List.reverse_eq_nil_iff]
        exact hw.1
      simp only [wordsAux, show isWs ' ' = true from rfl, if_true, List.append_nil,
        List.reverse_eq_nil_iff]
      rw [if_neg hw.1, List.reverse_reverse]
      exact congrArg (w :: ·) (ih hrest)

theorem cleanChars_idem (s : List Char) : cleanChars (cleanChars s) = cleanChars s := by
  unfold cleanChars
  rw [pyWords_pyStrip (joinWords (pyWords (pyStrip s))),
    pyWords_joinWords _ (pyWords_spec (pyStrip s))]

/-! ### Generic list facts used below -/

theorem suffix_append_right {α : Type} {l₁ l₂ : List α} (t : List α)
    (h : l₁ <:+ l₂) : l₁ ++ t <:+ l₂ ++ t := by
  obtain ⟨u, rfl⟩ := h
  exact ⟨u, (List.append_assoc u l₁ t).symm⟩

theorem suffix_filter {α : Type} (p : α → Bool) {l₁ l₂ : List α}
    (h : l₁ <:+ l₂) : l₁.filter p <:+ l₂.filter p := by
  obtain ⟨u, rfl⟩ := h
  exact ⟨u.filter p, (List.filter_append u l₁).symm⟩

theorem suffix_map {α β : Type} (f : α → β) {l₁ l₂ : List α}
    (h : l₁ <:+ l₂) : l₁.map f <:+ l₂.map f := by
  obtain ⟨u, rfl⟩ := h
  exact ⟨u.map f, (List.map_append f u l₁).symm⟩

theorem getD_mod_mem {α : Type} [Inhabited α] (l : List α) (d : α) (k : Nat)
    (h : l ≠ []) : l.getD (k % l.length) d ∈ l := by
  have hlen : 0 < l.length := List.length_pos.mpr h
  have hk : k % l.length < l.length := Nat.mod_lt _ hlen
  rw [List.getD_eq_getElem l d hk]
  exact List.getElem_mem hk

/-! ### Conversation buffer invariants (C2, C9) -/

theorem enforceMaxLength_suffix (l : List Msg) : enforceMaxLength l <:+ l := by
  unfold enforceMaxLength
  split
  · exact ⟨l.take (l.length - MAX_HISTORY_LENGTH), List.take_append_drop _ l⟩
  · exact List.suffix_rfl

theorem enforceMaxLength_length (l : List Msg) :
    (enforceMaxLength l).length ≤ MAX_HISTORY_LENGTH := by
  unfold enforceMaxLength
  split
  · rw [List.length_drop]
    omega
  · omega

theorem appendedMessages_cons (op : ConvOp) (ops : List ConvOp) :
    appendedMessages (op :: ops) = (opMessage op).toList ++ appendedMessages ops := by
  cases h : opMessage op <;> simp [appendedMessages, List.filterMap_cons, h]

theorem applyOp_messages_suffix (s : ConvState) (op : ConvOp) :
    (applyOp s op).messages <:+ s.messages ++ (opMessage op).toList := by
  cases op with
  | user t c =>
    by_cases h : pyStrip c = []
    · simp [applyOp, add_user_message, opMessage, h]
    · simp only [applyOp, add_user_message, opMessage, h, if_neg, ite_false,
        Option.toList_some]
      exact enforceMaxLength_suffix _
  | assistant t c =>
    by_cases h : pyStrip c = []
    · simp [applyOp, add_assistant_message, opMessage, h]
    · simp only [applyOp, add_assistant_message, opMessage, h, if_neg, ite_false,
        Option.toList_some]
      exact enforceMaxLength_suffix _
  | system t c =>
    simp only [applyOp, add_system_message, opMessage, Option.toList_some]
    exact List.suffix_rfl

theorem applyOps_messages_suffix (ops : List ConvOp) (s : ConvState) :
    (applyOps s ops).messages <:+ s.messages ++ appendedMessages ops := by
  induction ops generalizing s with
  | nil =>
    simp only [applyOps, List.foldl_nil, appendedMessages, List.filterMap_nil,
      List.append_nil]
    exact List.suffix_rfl
  | cons op ops ih =>
    have h1 : (applyOps (applyOp s op) ops).messages <:+
        (applyOp s op).messages ++ appendedMessages ops := ih (applyOp s op)
    have h2 : (applyOp s op).messages ++ appendedMessages ops <:+
        (s.messages ++ (opMessage op).toList) ++ appendedMessages ops :=
      suffix_append_right _ (applyOp_messages_suffix s op)
    have h3 : (applyOps s (op :: ops)).messages <:+
        (s.messages ++ (opMessage op).toList) ++ appendedMessages ops :=
      List.IsSuffix.trans h1 h2
    rw [appendedMessages_cons, ← List.append_assoc]
    exact h3

theorem applyOp_chat_length (s : ConvState) (op : ConvOp)
    (h : (s.messages.filter (fun m => isChatRole m.role)).length ≤ MAX_HISTORY_LENGTH) :
    ((applyOp s op).messages.filter (fun m => isChatRole m.role)).length ≤
      MAX_HISTORY_LENGTH := by
  cases op with
  | user t c =>
    by_cases hc : pyStrip c = []
    · simpa [applyOp, add_user_message, hc] using h
    · simp only [applyOp, add_user_message, hc, if_neg, ite_false]
      exact le_trans (List.length_filter_le _ _) (enforceMaxLength_length _)
  | assistant t c =>
    by_cases hc : pyStrip c = []
    · simpa [applyOp, add_assistant_message, hc] using h
    · simp only [applyOp, add_assistant_message, hc, if_neg, ite_false]
      exact le_trans (List.length_filter_le _ _) (enforceMaxLength_length _)
  | system t c =>
    simpa [applyOp, add_system_message, List.filter_append, isChatRole] using h

theorem applyOps_chat_length (ops : List ConvOp) (s : ConvState)
    (h : (s.messages.filter (fun m => isChatRole m.role)).length ≤ MAX_HISTORY_LENGTH) :
    ((applyOps s ops).messages.filter (fun m => isChatRole m.role)).length ≤
      MAX_HISTORY_LENGTH := by
  induction ops generalizing s with
  | nil => simpa [applyOps] using h
  | cons op ops ih => exact ih (applyOp s op) (applyOp_chat_length s op h)

/-- C2: for every sequence of append operations on a fresh
ConversationManager, `get_history()` has length at most
`MAX_HISTORY_LENGTH` (50), and the retained user/assistant messages are a
suffix of the full appended user/assistant sequence — i.e. exactly the
most recently appended ones, in their original relative order, oldest
evicted first. -/
theorem C2_history_bounded_and_recent (t : Nat) (ops : List ConvOp) :
    (get_history (applyOps (initConv t) ops)).length ≤ MAX_HISTORY_LENGTH ∧
    get_history (applyOps (initConv t) ops) <:+ appendedChatHistory ops := by
  constructor
  · have h := applyOps_chat_length ops (initConv t) (by simp [initConv])
    simpa [get_history] using h
  · have hsuf : (applyOps (initConv t) ops).messages <:+ appendedMessages ops := by
      have h := applyOps_messages_suffix ops (initConv t)
      simpa [initConv] using h
    exact suffix_map _ (suffix_filter _ hsuf)

/-- C9 counterexample: `add_system_message` appends even whitespace-only
content (the message list changes), and a mutating system append leaves
the last-activity timestamp untouched — refuting the claim as stated for
the system role at these concrete inputs. -/
theorem C9_counterexample :
    (add_system_message 5 [' '] (initConv 0)).messages ≠ (initConv 0).messages ∧
    (add_system_message 7 (("note").toList) (initConv 0)).messages ≠
      (initConv 0).messages ∧
    (add_system_message 7 (("note").toList) (initConv 0)).lastActivity ≠ 7 := by
  decide

/-- C9 (amended): for the user and assistant roles, an append whose
content is empty/whitespace-only after trimming is a silent no-op, and
every user/assistant append that does mutate the buffer updates the
last-activity timestamp; `add_system_message`, by contrast, appends
unconditionally (content stored stripped) and never updates
last-activity. -/
theorem C9_empty_append_noop (t : Nat) (c : List Char) (s : ConvState) :
    (pyStrip c = [] → add_user_message t c s = s ∧ add_assistant_message t c s = s) ∧
    (pyStrip c ≠ [] → (add_user_message t c s).lastActivity = t ∧
      (add_assistant_message t c s).lastActivity = t) ∧
    (add_system_message t c s).messages = s.messages ++ [⟨Role.system, pyStrip c, t⟩] ∧
    (add_system_message t c s).lastActivity = s.lastActivity := by
  refine ⟨fun h => ⟨?_, ?_⟩, fun h => ⟨?_, ?_⟩, rfl, rfl⟩ <;>
    simp [add_user_message, add_assistant_message, h]

theorem C9_empty_append_noop_witness :
    add_user_message 3 [' '] (initConv 0) = initConv 0 ∧
    (add_user_message 4 (("hi").toList) (initConv 0)).lastActivity = 4 ∧
    (add_system_message 5 (("hi").toList) (initConv 0)).lastActivity = 0 :=
  ⟨((C9_empty_append_noop 3 [' '] (initConv 0)).1 (by decide)).1,
   ((C9_empty_append_noop 4 (("hi").toList) (initConv 0)).2.1 (by decide)).1,
   (C9_empty_append_noop 5 (("hi").toList) (initConv 0)).2.2.2⟩

/-- C4: whenever the primary gateway chat call raises, `send_message`
retries exactly once with the mock variant and appends the visible
fallback marker to the substituted reply; if the mock retry also raises,
the reply is the literal error-message string; a successful primary reply
passes through untouched; and in the normal (non-end-command) path the
resulting reply — whatever the two gateway outcomes were — is appended
and returned, never an unhandled failure. -/
theorem C4_gateway_fallback :
    (∀ (reply : List Char) (mockRetry : Except (List Char) (List Char)),
      chatWithFallback (.ok reply) mockRetry = reply) ∧
    (∀ (e mockReply : List Char),
      chatWithFallback (.error e) (.ok mockReply) = mockReply ++ fallbackNote) ∧
    (∀ (e e' : List Char),
      chatWithFallback (.error e) (.error e') =
        ("System Error: ").toList ++ e ++ (". Please check server logs.").toList) ∧
    (∀ (t : Nat) (rawMsg : List Char)
      (primary mockRetry : Except (List Char) (List Char)) (s : ConvState),
      pyStrip rawMsg ≠ [] → lowerChars (pyStrip rawMsg) ∉ endCommands →
      send_message t rawMsg primary mockRetry s =
        (add_assistant_message t (chatWithFallback primary mockRetry)
          (add_user_message t (pyStrip rawMsg) s),
         .reply (chatWithFallback primary mockRetry))) := by
  refine ⟨fun r m => rfl, fun e m => rfl, fun e e' => rfl, ?_⟩
  intro t raw p m s h1 h2
  simp [send_message, h1, h2]

theorem C4_gateway_fallback_witness :
    send_message 1 (("hello").toList) (.error (("boom").toList))
        (.ok (("ok").toList)) (initConv 0) =
      (add_assistant_message 1
        (chatWithFallback (.error (("boom").toList)) (.ok (("ok").toList)))
        (add_user_message 1 (pyStrip (("hello").toList)) (initConv 0)),
       .reply (chatWithFallback (.error (("boom").toList)) (.ok (("ok").toList)))) :=
  C4_gateway_fallback.2.2.2 1 (("hello").toList) (.error (("boom").toList))
    (.ok (("ok").toList)) (initConv 0) (by decide) (by decide)

/-- C6: when the submitted text case-insensitively equals one of the end
commands, `send_message` behaves exactly as the explicit end call
(`end_session_internal`): the end-command text is never appended, the
only buffer change is the closing assistant message, and the transcript
of the resulting state is returned. -/
theorem C6_end_command (t : Nat) (rawMsg : List Char)
    (primary mockRetry : Except (List Char) (List Char)) (s : ConvState)
    (hne : pyStrip rawMsg ≠ [])
    (hend : lowerChars (pyStrip rawMsg) ∈ endCommands) :
    send_message t rawMsg primary mockRetry s = end_session_internal t s ∧
    (end_session_internal t s).1.messages =
      enforceMaxLength (s.messages ++ [⟨Role.assistant, closingMsg, t⟩]) ∧
    (end_session_internal t s).2 =
      .ended closingMsg (get_conversation_transcript (end_session_internal t s).1) := by
  refine ⟨?_, ?_, rfl⟩
  · simp [send_message, hne, hend]
  · have h1 : pyStrip closingMsg = closingMsg := by decide
    have h2 : pyStrip closingMsg ≠ [] := by decide
    have h3 : ¬ closingMsg = [] := by decide
    simp [end_session_internal, add_assistant_message, h2, h1, h3]

theorem C6_end_command_witness :
    send_message 2 (("End").toList) (.ok []) (.ok []) (initConv 0) =
      end_session_internal 2 (initConv 0) :=
  (C6_end_command 2 (("End").toList) (.ok []) (.ok []) (initConv 0)
    (by decide) (by decide)).1

/-- C7 counterexample: a history whose latest user message contains
"terrible" but which is still a first exchange (one user turn) gets a
greeting, not a negative-set reply — the greeting branch is checked
before the sentiment branches. -/
theorem C7_counterexample :
    hasSub (("terrible").toList) (lowerChars (("this was terrible").toList)) = true ∧
    mockChatCompletion [(Role.user, ("this was terrible").toList)] 0 ∉ mockNegatives := by
  decide

theorem mockChatCandidates_negative (pre : List (Role × List Char))
    (last : Role × List Char)
    (hterr : hasSub (("terrible").toList) (lowerChars last.2) = true)
    (hcount : 2 ≤ countUserMessages (pre ++ [last])) :
    mockChatCandidates (pre ++ [last]) = mockNegatives := by
  have h1 : ¬ (countUserMessages (pre ++ [last]) ≤ 1) := by omega
  have h2 : wordAny ["bad", "terrible", "awful", "horrible", "worst"]
      (lowerChars last.2) = true := by
    simp only [wordAny, List.any_eq_true]
    exact ⟨"terrible", by simp, hterr⟩
  simp [mockChatCandidates, List.getLast?_concat, h1, h2]

/-- C7 (amended): for every history with at least two user messages whose
final message contains "terrible" (case-insensitively), the mock reply is
an element of the fixed negative-response set; and for every history with
no prior user turns, the reply is an element of the fixed greeting
set. -/
theorem C7_mock_keyword_replies :
    (∀ (pre : List (Role × List Char)) (last : Role × List Char) (pick : Nat),
      hasSub (("terrible").toList) (lowerChars last.2) = true →
      2 ≤ countUserMessages (pre ++ [last]) →
      mockChatCompletion (pre ++ [last]) pick ∈ mockNegatives) ∧
    (∀ (messages : List (Role × List Char)) (pick : Nat),
      countUserMessages messages = 0 →
      mockChatCompletion messages pick ∈ mockGreetings) := by
  constructor
  · intro pre last pick hterr hcount
    unfold mockChatCompletion
    rw [mockChatCandidates_negative pre last hterr hcount]
    exact getD_mod_mem _ _ _ (by decide)
  · intro messages pick hzero
    have h1 : countUserMessages messages ≤ 1 := by omega
    unfold mockChatCompletion
    rw [show mockChatCandidates messages = mockGreetings by
      simp [mockChatCandidates, h1]]
    exact getD_mod_mem _ _ _ (by decide)

theorem C7_mock_keyword_replies_witness :
    mockChatCompletion
      [(Role.user, ("bad").toList), (Role.user, ("it was terrible").toList)] 1 ∈
      mockNegatives ∧
    mockChatCompletion [] 5 ∈ mockGreetings :=
  ⟨C7_mock_keyword_replies.1 [(Role.user, ("bad").toList)]
      (Role.user, ("it was terrible").toList) 1 (by decide) (by decide),
   C7_mock_keyword_replies.2 [] 5 (by decide)⟩

/-! ### Analyzer field lemmas (C1/C3/C10 evaluations, C8 idempotence) -/

theorem validate_score_ok_bounds {v : PyVal} {i : Int}
    (h : validate_score 1 5 v = .ok i) : 1 ≤ i ∧ i ≤ 5 := by
  unfold validate_score at h
  cases hf : pyFloatOfVal v <;> rw [hf] at h
  · rename_i j
    have hi : max 1 (min 5 j) = i := by
      simpa using h
    subst hi
    constructor
    · exact le_max_left 1 (min 5 j)
    · exact max_le (by norm_num) (min_le_left 5 j)
  · simp at h
  · have hi : (3 : Int) = i := by simpa using h
    omega
  · have hi : (3 : Int) = i := by simpa using h
    omega

theorem validate_score_int_id (i : Int) (h1 : 1 ≤ i) (h2 : i ≤ 5) :
    validate_score 1 5 (.int i) = .ok i := by
  show Except.ok (max 1 (min 5 i)) = Except.ok i
  rw [min_eq_right h2, max_eq_right h1]

theorem validate_radar_metrics_ok_bounds {m : PyVal} {r : Radar}
    (h : validate_radar_metrics m = .ok r) :
    (1 ≤ r.felt_heard ∧ r.felt_heard ≤ 5) ∧
    (1 ≤ r.concerns_addressed ∧ r.concerns_addressed ≤ 5) ∧
    (1 ≤ r.clear_communication ∧ r.clear_communication ≤ 5) ∧
    (1 ≤ r.respect_shown ∧ r.respect_shown ≤ 5) ∧
    (1 ≤ r.time_given ∧ r.time_given ≤ 5) := by
  unfold validate_radar_metrics at h
  split at h
  · split at h
    · exact absurd h (by simp)
    · split at h
      · exact absurd h (by simp)
      · split at h
        · exact absurd h (by simp)
        · split at h
          · exact absurd h (by simp)
          · split at h
            · exact absurd h (by simp)
            · rw [Except.ok.injEq] at h
              subst h
              exact ⟨validate_score_ok_bounds (by assumption),
                validate_score_ok_bounds (by assumption),
                validate_score_ok_bounds (by assumption),
                validate_score_ok_bounds (by assumption),
                validate_score_ok_bounds (by assumption)⟩
  · rw [Except.ok.injEq] at h
    subst h
    refine ⟨?_, ?_, ?_, ?_, ?_⟩ <;> constructor <;> decide

theorem validate_radar_metrics_roundtrip (r : Radar)
    (hfh : 1 ≤ r.felt_heard ∧ r.felt_heard ≤ 5)
    (hca : 1 ≤ r.concerns_addressed ∧ r.concerns_addressed ≤ 5)
    (hcc : 1 ≤ r.clear_communication ∧ r.clear_communication ≤ 5)
    (hrs : 1 ≤ r.respect_shown ∧ r.respect_shown ≤ 5)
    (htg : 1 ≤ r.time_given ∧ r.time_given ≤ 5) :
    validate_radar_metrics (radarToVal r) = .ok r := by
  have e0 : validate_radar_metrics (radarToVal r) =
      (match validate_score 1 5 (.int r.felt_heard) with
       | .error e => .error e
       | .ok fh =>
         match validate_score 1 5 (.int r.concerns_addressed) with
         | .error e => .error e
         | .ok ca =>
           match validate_score 1 5 (.int r.clear_communication) with
           | .error e => .error e
           | .ok cc =>
             match validate_score 1 5 (.int r.respect_shown) with
             | .error e => .error e
             | .ok rs =>
               match validate_score 1 5 (.int r.time_given) with
               | .error e => .error e
               | .ok tg => .ok ⟨fh, ca, cc, rs, tg⟩) := rfl
  rw [e0, validate_score_int_id _ hfh.1 hfh.2, validate_score_int_id _ hca.1 hca.2,
    validate_score_int_id _ hcc.1 hcc.2, validate_score_int_id _ hrs.1 hrs.2,
    validate_score_int_id _ htg.1 htg.2]

theorem confidence_branch_cases (l : List Char) :
    (if l ∈ confidenceYesValues then ("yes").toList
     else if l ∈ confidenceNoValues then ("no").toList
     else ("partial").toList) = ("yes").toList ∨
    (if l ∈ confidenceYesValues then ("yes").toList
     else if l ∈ confidenceNoValues then ("no").toList
     else ("partial").toList) = ("no").toList ∨
    (if l ∈ confidenceYesValues then ("yes").toList
     else if l ∈ confidenceNoValues then ("no").toList
     else ("partial").toList) = ("partial").toList := by
  split
  · left; rfl
  · split
    · right; left; rfl
    · right; right; rfl

theorem validate_confidence_cases (v : PyVal) :
    validate_confidence v = ("yes").toList ∨ validate_confidence v = ("no").toList ∨
    validate_confidence v = ("partial").toList := by
  unfold validate_confidence
  split
  · right; right; rfl
  · exact confidence_branch_cases _

theorem validate_confidence_roundtrip {c : List Char}
    (h : c = ("yes").toList ∨ c = ("no").toList ∨ c = ("partial").toList) :
    validate_confidence (.str c) = c := by
  rcases h with h | h | h <;> subst h <;> decide

theorem clean_text_fixpoint (x : PyVal) :
    clean_text x = [] ∨ cleanChars (clean_text x) = clean_text x := by
  cases x with
  | none => left; rfl
  | bool b => right; exact cleanChars_idem _
  | int n => right; exact cleanChars_idem _
  | str s => right; exact cleanChars_idem _
  | list xs => right; exact cleanChars_idem _
  | dict es => right; exact cleanChars_idem _

theorem bulletsPlaceholder_clean :
    cleanChars bulletsPlaceholder = bulletsPlaceholder ∧ bulletsPlaceholder ≠ [] := by
  decide

theorem cleanBulletList_mem (xs : List PyVal) :
    ∀ b ∈ cleanBulletList xs, cleanChars b = b ∧ b ≠ [] := by
  intro b hb
  simp only [cleanBulletList] at hb
  split at hb
  · rw [List.mem_singleton] at hb
    subst hb
    exact bulletsPlaceholder_clean
  · rw [List.mem_filter] at hb
    obtain ⟨hmem, hne⟩ := hb
    have hne' : b ≠ [] := by simpa using hne
    refine ⟨?_, hne'⟩
    rw [List.mem_map] at hmem
    obtain ⟨x, _, rfl⟩ := hmem
    rcases clean_text_fixpoint x with h | h
    · exact absurd h hne'
    · exact h

theorem validate_bullets_mem (v : PyVal) :
    ∀ b ∈ validate_bullets v, cleanChars b = b ∧ b ≠ [] := by
  intro b hb
  unfold validate_bullets at hb
  split at hb
  · rw [List.mem_singleton] at hb
    subst hb
    exact bulletsPlaceholder_clean
  · exact cleanBulletList_mem _ b hb
  · exact cleanBulletList_mem _ b hb
  · rw [List.mem_singleton] at hb
    subst hb
    exact bulletsPlaceholder_clean

theorem cleanBulletList_length (xs : List PyVal) :
    1 ≤ (cleanBulletList xs).length ∧ (cleanBulletList xs).length ≤ 5 := by
  simp only [cleanBulletList]
  split
  · exact ⟨by decide, by decide⟩
  · rename_i h
    constructor
    · exact Nat.one_le_iff_ne_zero.mpr (fun hz => h (List.eq_nil_of_length_eq_zero hz))
    · calc (((xs.take 5).map clean_text).filter (fun t => t ≠ [])).length
          ≤ ((xs.take 5).map clean_text).length := List.length_filter_le _ _
        _ = (xs.take 5).length := List.length_map _ _
        _ ≤ 5 := by
            rw [List.length_take]
            omega

theorem validate_bullets_length (v : PyVal) :
    1 ≤ (validate_bullets v).length ∧ (validate_bullets v).length ≤ 5 := by
  unfold validate_bullets
  split
  · exact ⟨by decide, by decide⟩
  · exact cleanBulletList_length _
  · exact cleanBulletList_length _
  · exact ⟨by decide, by decide⟩

theorem validate_bullets_roundtrip (out : List (List Char))
    (hmem : ∀ b ∈ out, cleanChars b = b ∧ b ≠ [])
    (h1 : 1 ≤ out.length) (h5 : out.length ≤ 5) :
    validate_bullets (.list (out.map .str)) = out := by
  have hne : out ≠ [] := by
    intro hz
    subst hz
    simp at h1
  show cleanBulletList (out.map .str) = out
  unfold cleanBulletList
  have htake : (out.map PyVal.str).take 5 = out.map PyVal.str :=
    List.take_of_length_le (by simpa using h5)
  have hmap : (out.map PyVal.str).map clean_text = out := by
    rw [List.map_map]
    have : ∀ b ∈ out, (clean_text ∘ PyVal.str) b = id b := by
      intro b hb
      show cleanChars b = b
      exact (hmem b hb).1
    rw [List.map_congr_left this, List.map_id]
  have hfilter : out.filter (fun t => t ≠ []) = out := by
    rw [List.filter_eq_self]
    intro b hb
    simpa using (hmem b hb).2
  rw [htake, hmap, hfilter, if_neg hne]

/-- C1 (failing-input evaluation): `normalize` does raise on the input
`{"satisfaction_score": "inf"}`.  `float("inf")` is the infinite value
and `int()` of it raises `OverflowError`, which the
`except (ValueError, TypeError)` clause of `validate_score` does not
catch, so `process_llm_output` propagates it instead of returning a
record. -/
theorem C1_process_inf_raises :
    process_llm_output (.dict [("satisfaction_score", .str (("inf").toList))]) =
      .error .overflowError := by
  decide

/-- C3 (failing-input evaluation): a provider result that parses
successfully to `{"duration_satisfaction": "Infinity"}` makes the analyze
pipeline raise `OverflowError`; the gateway-error path and the
parse-failure path, by contrast, do yield the degraded valid record with
satisfaction_score = 3. -/
theorem C3_pipeline_inf_raises :
    process_llm_output (analyze_feedback
        (.ok (some (.dict [("duration_satisfaction", .str (("Infinity").toList))])))) =
      .error .overflowError ∧
    (∀ e : List Char, process_llm_output (analyze_feedback (.error e)) =
      .ok ⟨3, defaultRadar, ("partial").toList, 3, 3, [bulletsPlaceholder]⟩) ∧
    process_llm_output (analyze_feedback (.ok Option.none)) =
      .ok ⟨3, defaultRadar, ("partial").toList, 3, 3, [bulletsPlaceholder]⟩ :=
  ⟨by decide,
   fun e => by
    rw [show analyze_feedback (Except.error e) = PyVal.dict [] from rfl]
    decide,
   by decide⟩

/-- C10 (failing-input evaluation): `validate_radar_metrics` raises on
`{"time_given": "-inf"}` instead of returning a clamped mapping; on
inputs free of infinity-spelling strings it does drop extra keys and
default missing axes to 3, as the second conjunct illustrates. -/
theorem C10_radar_inf_raises :
    validate_radar_metrics (.dict [("time_given", .str (("-inf").toList))]) =
      .error .overflowError ∧
    validate_radar_metrics
        (.dict [("extra_axis", .int 9), ("felt_heard", .int 7)]) =
      .ok ⟨5, 3, 3, 3, 3⟩ := by
  constructor <;> decide

theorem process_roundtrip (r : Record)
    (hss : 1 ≤ r.satisfaction_score ∧ r.satisfaction_score ≤ 5)
    (hfh : 1 ≤ r.radar_metrics.felt_heard ∧ r.radar_metrics.felt_heard ≤ 5)
    (hca : 1 ≤ r.radar_metrics.concerns_addressed ∧ r.radar_metrics.concerns_addressed ≤ 5)
    (hcc : 1 ≤ r.radar_metrics.clear_communication ∧ r.radar_metrics.clear_communication ≤ 5)
    (hrs : 1 ≤ r.radar_metrics.respect_shown ∧ r.radar_metrics.respect_shown ≤ 5)
    (htg : 1 ≤ r.radar_metrics.time_given ∧ r.radar_metrics.time_given ≤ 5)
    (hct : r.confidence_in_treatment = ("yes").toList ∨
      r.confidence_in_treatment = ("no").toList ∨
      r.confidence_in_treatment = ("partial").toList)
    (hds : 1 ≤ r.duration_satisfaction ∧ r.duration_satisfaction ≤ 5)
    (hsb : 1 ≤ r.staff_behavior ∧ r.staff_behavior ≤ 5)
    (hbmem : ∀ b ∈ r.summary_bullets, cleanChars b = b ∧ b ≠ [])
    (hb1 : 1 ≤ r.summary_bullets.length) (hb5 : r.summary_bullets.length ≤ 5) :
    process_llm_output (recordToDict r) = .ok r := by
  have e0 : process_llm_output (recordToDict r) =
      (match validate_score 1 5 (.int r.satisfaction_score) with
       | .error e => .error e
       | .ok ss =>
         match validate_radar_metrics (radarToVal r.radar_metrics) with
         | .error e => .error e
         | .ok rm =>
           match validate_score 1 5 (.int r.duration_satisfaction) with
           | .error e => .error e
           | .ok ds =>
             match validate_score 1 5 (.int r.staff_behavior) with
             | .error e => .error e
             | .ok sb =>
               .ok ⟨ss, rm, validate_confidence (.str r.confidence_in_treatment),
                 ds, sb,
                 validate_bullets (.list (r.summary_bullets.map .str))⟩) := rfl
  rw [e0, validate_score_int_id _ hss.1 hss.2,
    validate_radar_metrics_roundtrip r.radar_metrics hfh hca hcc hrs htg,
    validate_score_int_id _ hds.1 hds.2, validate_score_int_id _ hsb.1 hsb.2,
    validate_confidence_roundtrip hct,
    validate_bullets_roundtrip _ hbmem hb1 hb5]

/-- C8: `normalize` is idempotent — whenever `process_llm_output raw`
returns a record, re-running `process_llm_output` on that record (as the
plain dict the source builds) returns the very same record. -/
theorem C8_normalize_idempotent (raw : PyVal) (r : Record)
    (h : process_llm_output raw = .ok r) :
    process_llm_output (recordToDict r) = .ok r := by
  simp only [process_llm_output] at h
  split at h
  · exact absurd h (by simp)
  · split at h
    · exact absurd h (by simp)
    · split at h
      · exact absurd h (by simp)
      · split at h
        · exact absurd h (by simp)
        · rw [Except.ok.injEq] at h
          subst h
          have hradar := validate_radar_metrics_ok_bounds (by assumption)
          exact process_roundtrip _ (validate_score_ok_bounds (by assumption))
            hradar.1 hradar.2.1 hradar.2.2.1 hradar.2.2.2.1 hradar.2.2.2.2
            (validate_confidence_cases _)
            (validate_score_ok_bounds (by assumption))
            (validate_score_ok_bounds (by assumption))
            (validate_bullets_mem _) (validate_bullets_length _).1
            (validate_bullets_length _).2

theorem C8_normalize_idempotent_witness :
    process_llm_output (recordToDict
        ⟨3, defaultRadar, ("partial").toList, 3, 3, [bulletsPlaceholder]⟩) =
      .ok ⟨3, defaultRadar, ("partial").toList, 3, 3, [bulletsPlaceholder]⟩ :=
  C8_normalize_idempotent (.dict []) _ (by decide)

/-- C5 counterexample: on the six-element list whose first element is
empty, the code truncates to the first five elements before dropping the
empty one (four bullets survive), while the claim's
clean-drop-then-truncate order would keep five — so `validate_bullets`
does not behave as the claim describes. -/
theorem C5_counterexample :
    validate_bullets
        (.list [.str [], .str ['a'], .str ['b'], .str ['c'], .str ['d'], .str ['e']]) =
      [['a'], ['b'], ['c'], ['d']] ∧
    claimedValidateBullets
        (.list [.str [], .str ['a'], .str ['b'], .str ['c'], .str ['d'], .str ['e']]) =
      [['a'], ['b'], ['c'], ['d'], ['e']] ∧
    validate_bullets
        (.list [.str [], .str ['a'], .str ['b'], .str ['c'], .str ['d'], .str ['e']]) ≠
      claimedValidateBullets
        (.list [.str [], .str ['a'], .str ['b'], .str ['c'], .str ['d'], .str ['e']]) := by
  refine ⟨by decide, by decide, by decide⟩

theorem filterMap_strip_eq (l : List (List Char)) :
    l.filterMap
        (fun b => if pyStrip b = [] then Option.none else some (PyVal.str (pyStrip b))) =
      ((l.map pyStrip).filter (fun b => b ≠ [])).map PyVal.str := by
  induction l with
  | nil => rfl
  | cons b l ih =>
    by_cases h : pyStrip b = [] <;> simp [List.filterMap_cons, h, ih]

theorem filterMap_clean_eq (xs : List PyVal) :
    xs.filterMap (fun x => if clean_text x = [] then Option.none else some (clean_text x)) =
      (xs.map clean_text).filter (fun t => t ≠ []) := by
  induction xs with
  | nil => rfl
  | cons x l ih =>
    by_cases h : clean_text x = [] <;> simp [List.filterMap_cons, h, ih]

/-- C5 (amended): `validate_bullets` behaves as — null yields the
placeholder; a string is split on commas, fragments trimmed and empty
fragments dropped; a (resulting or directly-given) list is truncated to
its FIRST FIVE elements, and only then is each element trimmed and
whitespace-collapsed with empty elements dropped; any other input, or an
empty surviving list, yields the placeholder. -/
theorem C5_validate_bullets_characterization (bullets : PyVal) :
    validate_bullets bullets = amendedValidateBullets bullets := by
  cases bullets with
  | none => rfl
  | bool b => rfl
  | int n => rfl
  | str s =>
    show cleanBulletList ((((splitOnComma s).map pyStrip).filter (fun b => b ≠ [])).map .str) =
      amendedBulletListRule ((splitOnComma s).filterMap
        (fun b => if pyStrip b = [] then Option.none else some (PyVal.str (pyStrip b))))
    unfold amendedBulletListRule cleanBulletList
    rw [filterMap_strip_eq, filterMap_clean_eq]
  | list xs =>
    show cleanBulletList xs = amendedBulletListRule xs
    unfold amendedBulletListRule cleanBulletList
    rw [filterMap_clean_eq]
  | dict es => rfl

end VitalSense

